import Mathlib

/-!
Shallow embedding of the DIY-projects API (Encore.ts demo repository).

The Materials Catalog lives in `src/materials/types.ts` (types followed by the
service implementation); the Project Ledger lives in `src/projects/projects.ts`.
Every operation below is translated statement-by-statement from the TypeScript
source.  The SQL store is modelled as in-memory lists of rows; `db.exec` of a
statement is modelled as the list of result rows that statement produces
(a `SELECT` or `INSERT ... RETURNING` yields rows, a bare `UPDATE`/`DELETE`
without a `RETURNING` clause yields none).  Monetary values (`DECIMAL(10,2)`
columns) are modelled as rationals; integer columns as `Int`/`Nat`.
Descriptive columns never read by the verified logic (description, category,
unit, supplier, specifications, tags, timestamps) are omitted from the row
models; `updated_at` refreshes are side effects on omitted columns.
-/

namespace DIYApi

/-- Error taxonomy of the service, matching the `throw new Error(...)` sites. -/
inductive ApiErr where
  | notFound
  | insufficientStock
  | materialNotFound
  | noMaterials
  | noFields
  | sqlError
  deriving DecidableEq, Repr

/-- A row of the `materials` table (columns the verified logic reads/writes). -/
structure Material where
  id : Nat
  name : String
  pricePerUnit : ℚ
  stockQuantity : Int
  minStockLevel : Int
  isActive : Bool
  deriving DecidableEq, Repr

/-- A row of the `stock_adjustments` audit table. -/
structure StockAdjustment where
  id : Nat
  materialId : Nat
  quantityBefore : Int
  quantityChange : Int
  quantityAfter : Int
  reason : String
  deriving DecidableEq, Repr

/-- The materials service database: two tables plus the serial id counter
for `stock_adjustments`. -/
structure MaterialsDB where
  materials : List Material
  adjustments : List StockAdjustment
  nextAdjustmentId : Nat
  deriving DecidableEq, Repr

/-- `SELECT ... FROM materials WHERE id = ${id}` (no `is_active` filter),
as used by `updateStock` and `reserveMaterials`. -/
def findMaterialRow (db : MaterialsDB) (id : Nat) : Option Material :=
  db.materials.find? (fun m => m.id == id)

/-- The helper `getMaterialById` of `materials.ts`:
`SELECT * FROM materials WHERE id = ${id} AND is_active = true`,
throwing `not found` when no row matches. -/
def getMaterialById (db : MaterialsDB) (id : Nat) : Except ApiErr Material :=
  match db.materials.find? (fun m => m.id == id && m.isActive) with
  | some m => .ok m
  | none => .error .notFound

/-- `UPDATE materials SET stock_quantity = ${q}, updated_at = NOW() WHERE id = ${id}`. -/
def setStockQuantity (db : MaterialsDB) (id : Nat) (q : Int) : MaterialsDB :=
  { db with
    materials := db.materials.map
      (fun m => if m.id = id then { m with stockQuantity := q } else m) }

/-- `INSERT INTO stock_adjustments (material_id, quantity_before, quantity_change,
quantity_after, reason) VALUES (...)`. -/
def appendAdjustment (db : MaterialsDB) (mid : Nat) (qBefore qChange qAfter : Int)
    (reason : String) : MaterialsDB :=
  { db with
    adjustments :=
      db.adjustments ++ [⟨db.nextAdjustmentId, mid, qBefore, qChange, qAfter, reason⟩],
    nextAdjustmentId := db.nextAdjustmentId + 1 }

/-- `updateStock` (POST `/materials/:id/stock`): read current stock (by id only),
fail `not found` if the row is absent, compute `newStock = current + change`,
fail `Insufficient stock` if `newStock < 0`, otherwise update the row, append
one audit entry, and re-fetch the material through `getMaterialById`.
The pair returned is (database after the call, call outcome); mutations
performed before a throw stay committed, as in the source (no transaction). -/
def updateStock (db : MaterialsDB) (id : Nat) (quantityChange : Int) (reason : String) :
    MaterialsDB × Except ApiErr Material :=
  match findMaterialRow db id with
  | none => (db, .error .notFound)
  | some m =>
    let currentStock := m.stockQuantity
    let newStock := currentStock + quantityChange
    if newStock < 0 then
      (db, .error .insufficientStock)
    else
      let db1 := setStockQuantity db id newStock
      let db2 := appendAdjustment db1 id currentStock quantityChange newStock reason
      (db2, getMaterialById db2 id)

/-- Concrete material row used to witness the stock theorems. -/
def matW : Material :=
  { id := 1, name := "Pine Wood Board 2x4x8", pricePerUnit := (899 : ℚ)/100,
    stockQuantity := 5, minStockLevel := 2, isActive := true }

/-- Concrete database used to witness the stock theorems. -/
def dbW : MaterialsDB :=
  { materials := [matW], adjustments := [], nextAdjustmentId := 0 }

/-- One entry of the batch passed to `reserveMaterials`. -/
structure Reservation where
  materialId : Nat
  quantity : Int
  reason : String
  deriving DecidableEq, Repr

/-- `reserveMaterials` (internal API): applies each reservation entry in order
as an independent read / check / update / audit-insert sequence.  The comment
in the source says `Start a transaction to ensure atomicity`, but no
transaction is opened, so entries already applied stay committed when a later
entry throws. -/
def reserveMaterials (db : MaterialsDB) :
    List Reservation → MaterialsDB × Except ApiErr Bool
  | [] => (db, .ok true)
  | r :: rest =>
    match findMaterialRow db r.materialId with
    | none => (db, .error .notFound)
    | some m =>
      if m.stockQuantity < r.quantity then
        (db, .error .insufficientStock)
      else
        let newStock := m.stockQuantity - r.quantity
        let db1 := setStockQuantity db r.materialId newStock
        let db2 := appendAdjustment db1 r.materialId m.stockQuantity (-r.quantity)
          newStock r.reason
        reserveMaterials db2 rest

/-- Decides whether a single reservation entry would fail against `db`:
its material row is absent, or the stock is below the requested quantity. -/
def reservationFails (db : MaterialsDB) (r : Reservation) : Bool :=
  match findMaterialRow db r.materialId with
  | none => true
  | some m => m.stockQuantity < r.quantity

/-- Optional fields of `UpdateMaterialRequest` carried by the row model.
A request may also provide other descriptive fields (description, category,
unit, supplier, supplierPartNumber, imageUrl, specifications, tags); those are
modelled only by whether any of them is present, since they never touch
`stock_quantity` or the audit log. -/
structure UpdateMaterialRequest where
  name : Option String := none
  pricePerUnit : Option ℚ := none
  stockQuantity : Option Int := none
  minStockLevel : Option Int := none
  isActive : Option Bool := none
  otherFieldProvided : Bool := false
  deriving DecidableEq, Repr

/-- True when at least one field of the update request is provided
(the `updateFields.length === 0` check of the source). -/
def UpdateMaterialRequest.hasField (u : UpdateMaterialRequest) : Bool :=
  u.name.isSome || u.pricePerUnit.isSome || u.stockQuantity.isSome ||
    u.minStockLevel.isSome || u.isActive.isSome || u.otherFieldProvided

/-- Applies the provided fields of an update request to a material row. -/
def applyMaterialUpdates (m : Material) (u : UpdateMaterialRequest) : Material :=
  { m with
    name := u.name.getD m.name,
    pricePerUnit := u.pricePerUnit.getD m.pricePerUnit,
    stockQuantity := u.stockQuantity.getD m.stockQuantity,
    minStockLevel := u.minStockLevel.getD m.minStockLevel,
    isActive := u.isActive.getD m.isActive }

/-- `updateMaterial` (PUT `/materials/:id`): builds a dynamic UPDATE from the
provided fields, fails with `No fields to update` when none is provided,
applies the update to the row with the given id (the UPDATE has no `is_active`
filter), and re-fetches through `getMaterialById`.  No audit row is written on
any path of this endpoint, even when `stockQuantity` is among the fields. -/
def updateMaterial (db : MaterialsDB) (id : Nat) (u : UpdateMaterialRequest) :
    MaterialsDB × Except ApiErr Material :=
  if u.hasField then
    let db' := { db with
      materials := db.materials.map
        (fun m => if m.id = id then applyMaterialUpdates m u else m) }
    (db', getMaterialById db' id)
  else
    (db, .error .noFields)

/-- Second concrete material row, used for the batch-reservation witnesses. -/
def matW2 : Material :=
  { id := 2, name := "Arduino Uno R3", pricePerUnit := (2499 : ℚ)/100,
    stockQuantity := 5, minStockLevel := 1, isActive := true }

/-- Concrete two-material database for the batch-reservation witnesses. -/
def dbR : MaterialsDB :=
  { materials := [matW, matW2], adjustments := [], nextAdjustmentId := 0 }

/-- The state of `dbR` after committing the reservation of 2 units of
material 1: stock decremented and one audit row appended. -/
def dbR1 : MaterialsDB :=
  { materials := [{ matW with stockQuantity := 3 }, matW2],
    adjustments := [{ id := 0, materialId := 1, quantityBefore := 5,
                      quantityChange := -2, quantityAfter := 3, reason := "r1" }],
    nextAdjustmentId := 1 }

/-- Concrete update request that sets only `stockQuantity`. -/
def uStock : UpdateMaterialRequest := { stockQuantity := some 10 }

/-- Search parameters of `listMaterials` expressible on the row model.  The
free-text, category, unit and supplier filters act on omitted descriptive
columns; the source defaults `limit` to 20 and `offset` to 0. -/
structure MaterialSearchParams where
  minPrice : Option ℚ := none
  maxPrice : Option ℚ := none
  inStock : Bool := false
  lowStock : Bool := false
  limit : Nat := 20
  offset : Nat := 0
  deriving DecidableEq, Repr

/-- The WHERE clause `listMaterials` builds: always `is_active = true`, then
one conjunct per provided filter.  `if (params.minPrice)` in JS skips the
clause when the value is 0 (falsy), which the 0-tests mirror. -/
def materialMatches (p : MaterialSearchParams) (m : Material) : Bool :=
  m.isActive
    && (match p.minPrice with
        | none => true
        | some v => if v = 0 then true else decide (v ≤ m.pricePerUnit))
    && (match p.maxPrice with
        | none => true
        | some v => if v = 0 then true else decide (m.pricePerUnit ≤ v))
    && (if p.inStock then decide (0 < m.stockQuantity) else true)
    && (if p.lowStock then
          decide (m.stockQuantity ≤ m.minStockLevel) && decide (0 < m.stockQuantity)
        else true)

/-- `ORDER BY name ASC`. -/
def sortByName (l : List Material) : List Material :=
  List.insertionSort (fun a b => a.name ≤ b.name) l

/-- Response shape of GET `/materials`. -/
structure MaterialListResponse where
  materials : List Material
  total : Nat
  limit : Nat
  offset : Nat
  deriving DecidableEq, Repr

/-- `listMaterials` (GET `/materials`): filter, order by name, paginate with
`LIMIT ${limit} OFFSET ${offset}`; `total` is the count of all matching rows,
computed independently of pagination. -/
def listMaterials (db : MaterialsDB) (p : MaterialSearchParams) : MaterialListResponse :=
  let filtered := db.materials.filter (materialMatches p)
  { materials := ((sortByName filtered).drop p.offset).take p.limit,
    total := filtered.length,
    limit := p.limit,
    offset := p.offset }

/-- Zero-stock material with a positive minimum stock level, for the C9 witness. -/
def matZero : Material :=
  { id := 3, name := "LED Strip RGB 5m", pricePerUnit := (2999 : ℚ)/100,
    stockQuantity := 0, minStockLevel := 3, isActive := true }

/-- Low-stock material (stock 2, minimum 5), for the C9 witness. -/
def matLow : Material :=
  { id := 4, name := "Oak Plywood 4x8", pricePerUnit := (8999 : ℚ)/100,
    stockQuantity := 2, minStockLevel := 5, isActive := true }

/-- Concrete catalog for the C9 witness: one comfortable material, one
zero-stock material, one low-stock material. -/
def dbL9 : MaterialsDB :=
  { materials := [matW, matZero, matLow], adjustments := [], nextAdjustmentId := 0 }

/-- The enumerated project status column. -/
inductive ProjectStatus where
  | planning
  | in_progress
  | completed
  | paused
  | cancelled
  deriving DecidableEq, Repr

/-- A row of the `projects` table (columns the verified logic reads/writes);
`completedAtSet` records whether `completed_at` has been stamped. -/
structure ProjectRow where
  id : Nat
  title : String
  estimatedCost : ℚ
  actualCost : Option ℚ
  status : ProjectStatus
  completedAtSet : Bool
  deriving DecidableEq, Repr

/-- A row of the `project_materials` table. -/
structure ProjectMaterialRow where
  id : Nat
  projectId : Nat
  materialId : Nat
  quantity : Int
  unitPrice : ℚ
  totalPrice : ℚ
  notes : String
  deriving DecidableEq, Repr

/-- Combined state of the two services: the materials database plus the
projects database and its serial id counters. -/
structure World where
  mdb : MaterialsDB
  projects : List ProjectRow
  projectMaterials : List ProjectMaterialRow
  nextProjectId : Nat
  nextPmId : Nat
  deriving DecidableEq, Repr

/-- One entry of the map returned by `getMaterialPricing`. -/
structure Pricing where
  price : ℚ
  inStock : Bool
  available : Int
  deriving DecidableEq, Repr

/-- `getMaterialPricing` (internal API): `SELECT id, price_per_unit,
stock_quantity FROM materials WHERE id = ANY(${ids}) AND is_active = true`,
shaped into a map keyed by id — a requested id with no active row is simply
absent from the result. -/
def getMaterialPricing (db : MaterialsDB) (ids : List Nat) (x : Nat) : Option Pricing :=
  if ids.contains x then
    match db.materials.find? (fun m => m.id == x && m.isActive) with
    | some m => some ⟨m.pricePerUnit, decide (0 < m.stockQuantity), m.stockQuantity⟩
    | none => none
  else none

/-- One line item of a create/update-project request
(`CreateProjectMaterialRequest`); an absent `notes` becomes the empty string. -/
structure LineItemReq where
  materialId : Nat
  quantity : Int
  notes : String := ""
  deriving DecidableEq, Repr

/-- Fields of `CreateProjectRequest` the row model carries. -/
structure CreateProjectRequest where
  title : String
  materials : List LineItemReq
  deriving DecidableEq, Repr

/-- The pricing loop shared by `createProject` and `updateProject`: walk the
line items in order, throw `Material with id ... not found` at the first item
whose id is absent from the pricing map, otherwise accumulate
`quantity * price`. -/
def computeCost (pricing : Nat → Option Pricing) : List LineItemReq → Except ApiErr ℚ
  | [] => .ok 0
  | it :: rest =>
    match pricing it.materialId with
    | none => .error .materialNotFound
    | some pr =>
      match computeCost pricing rest with
      | .error e => .error e
      | .ok c => .ok ((it.quantity : ℚ) * pr.price + c)

/-- The total the pricing loop accumulates when every lookup succeeds. -/
def expectedCost (pricing : Nat → Option Pricing) (items : List LineItemReq) : ℚ :=
  (items.map (fun it =>
    (it.quantity : ℚ) * (((pricing it.materialId).map Pricing.price).getD 0))).sum

/-- The `INSERT INTO project_materials ...` loop: one row per line item,
snapshotting the unit price from the pricing map and `quantity * price` as the
total.  The source indexes the map without a check here; the loop only runs
after the pricing loop succeeded, so the `getD 0` default is unreachable. -/
def insertPmRows (w : World) (pid : Nat) (pricing : Nat → Option Pricing) :
    List LineItemReq → World
  | [] => w
  | it :: rest =>
    let price := ((pricing it.materialId).map Pricing.price).getD 0
    insertPmRows
      { w with
        projectMaterials := w.projectMaterials ++
          [{ id := w.nextPmId, projectId := pid, materialId := it.materialId,
             quantity := it.quantity, unitPrice := price,
             totalPrice := (it.quantity : ℚ) * price, notes := it.notes }],
        nextPmId := w.nextPmId + 1 }
      pid pricing rest

/-- The rows the insert loop produces for a given batch of line items. -/
def expectedPmRows (pid : Nat) (startId : Nat) (pricing : Nat → Option Pricing) :
    List LineItemReq → List ProjectMaterialRow
  | [] => []
  | it :: rest =>
    { id := startId, projectId := pid, materialId := it.materialId,
      quantity := it.quantity,
      unitPrice := ((pricing it.materialId).map Pricing.price).getD 0,
      totalPrice := (it.quantity : ℚ) * (((pricing it.materialId).map Pricing.price).getD 0),
      notes := it.notes } :: expectedPmRows pid (startId + 1) pricing rest

/-- The helper `getProjectById` of `projects.ts`: one row joined with its
line items; `Project with id ... not found` when absent. -/
def getProjectById (w : World) (id : Nat) :
    Except ApiErr (ProjectRow × List ProjectMaterialRow) :=
  match w.projects.find? (fun p => p.id == id) with
  | some p => .ok (p, w.projectMaterials.filter (fun pm => pm.projectId == id))
  | none => .error .notFound

/-- `createProject` (POST `/projects`): price every line item via the
Materials Catalog (throwing at the first id absent from the pricing result),
insert the project row with status `planning` and the computed estimated cost,
insert one `project_materials` row per line item, and return the hydrated
project. -/
def createProject (w : World) (req : CreateProjectRequest) :
    World × Except ApiErr (ProjectRow × List ProjectMaterialRow) :=
  let pricing := getMaterialPricing w.mdb (req.materials.map (·.materialId))
  match computeCost pricing req.materials with
  | .error e => (w, .error e)
  | .ok cost =>
    let pid := w.nextProjectId
    let proj : ProjectRow :=
      { id := pid, title := req.title, estimatedCost := cost, actualCost := none,
        status := .planning, completedAtSet := false }
    let w1 := { w with projects := w.projects ++ [proj], nextProjectId := pid + 1 }
    let w2 := insertPmRows w1 pid pricing req.materials
    (w2, getProjectById w2 pid)

/-- Fields of `UpdateProjectRequest` the row model carries.  Other provided
fields (difficulty, category, estimatedHours, instructions, imageUrls, tags)
are modelled only by whether any is present. -/
structure UpdateProjectRequest where
  title : Option String := none
  status : Option ProjectStatus := none
  estimatedCost : Option ℚ := none
  actualCost : Option ℚ := none
  materials : Option (List LineItemReq) := none
  otherFieldProvided : Bool := false
  deriving DecidableEq, Repr

/-- True when a field other than `materials` is provided. -/
def UpdateProjectRequest.hasField (u : UpdateProjectRequest) : Bool :=
  u.title.isSome || u.status.isSome || u.estimatedCost.isSome ||
    u.actualCost.isSome || u.otherFieldProvided

/-- Applies the provided scalar fields to a project row; setting status to
`completed` additionally stamps `completed_at`. -/
def applyProjectUpdates (p : ProjectRow) (u : UpdateProjectRequest) : ProjectRow :=
  let p1 := { p with
    title := u.title.getD p.title,
    status := u.status.getD p.status,
    estimatedCost := u.estimatedCost.getD p.estimatedCost,
    actualCost := match u.actualCost with | some c => some c | none => p.actualCost }
  if u.status = some .completed then { p1 with completedAtSet := true } else p1

/-- The generic field-update stage of `updateProject` (after the materials
branch).  When the request still carries a `materials` key — which happens
exactly when the provided list was empty, since the non-empty branch deletes
the key — the dynamic UPDATE contains `materials = $n`, a column the
`projects` table does not have, and the single statement fails; no row is
touched.  Otherwise it fails with `No fields to update` when nothing is
provided, else applies the fields to the matching row and re-fetches. -/
def updateProjectFields (w : World) (id : Nat) (u : UpdateProjectRequest) :
    World × Except ApiErr (ProjectRow × List ProjectMaterialRow) :=
  if u.materials.isSome then
    (w, .error .sqlError)
  else if u.hasField then
    let w' := { w with
      projects := w.projects.map
        (fun p => if p.id = id then applyProjectUpdates p u else p) }
    (w', getProjectById w' id)
  else
    (w, .error .noFields)

/-- `updateProject` (PUT `/projects/:id`): only when `materials` is provided
AND non-empty (`updates.materials && updates.materials.length > 0`) does the
full replacement run — re-price all new line items, recompute the estimated
cost, `DELETE FROM project_materials WHERE project_id = ${id}`, insert the new
rows, and drop the `materials` key before the generic field update.  An empty
provided list skips the whole branch, keeping the `materials` key. -/
def updateProject (w : World) (id : Nat) (u : UpdateProjectRequest) :
    World × Except ApiErr (ProjectRow × List ProjectMaterialRow) :=
  match u.materials with
  | some ms =>
    if ms.isEmpty then
      updateProjectFields w id u
    else
      let pricing := getMaterialPricing w.mdb (ms.map (·.materialId))
      match computeCost pricing ms with
      | .error e => (w, .error e)
      | .ok newCost =>
        let w1 := { w with
          projectMaterials := w.projectMaterials.filter (fun pm => pm.projectId != id) }
        let w2 := insertPmRows w1 id pricing ms
        updateProjectFields w2 id
          { u with materials := none, estimatedCost := some newCost }
  | none => updateProjectFields w id u

/-- `deleteProject` (DELETE `/projects/:id`): delete the line items, then the
project row.  `db.exec` yields the statement's result rows and the DELETE has
no RETURNING clause, so the checked result list is always empty and the
`not found` error is raised even when a row was deleted. -/
def deleteProject (w : World) (id : Nat) : World × Except ApiErr Bool :=
  let w1 := { w with
    projectMaterials := w.projectMaterials.filter (fun pm => pm.projectId != id) }
  let deletedRows : List ProjectRow := []
  let w2 := { w1 with projects := w1.projects.filter (fun q => q.id != id) }
  if deletedRows.length == 0 then
    (w2, .error .notFound)
  else
    (w2, .ok true)

/-- `startProject` (POST `/projects/:id/start`): read the project's line
items, throw `Project has no materials to reserve` when there are none,
otherwise issue one `reserveMaterials` call covering every line item and then
set the status to `in_progress`.  The project's current status is never read. -/
def startProject (w : World) (id : Nat) :
    World × Except ApiErr (ProjectRow × List ProjectMaterialRow) :=
  let pms := w.projectMaterials.filter (fun pm => pm.projectId == id)
  if pms.isEmpty then
    (w, .error .noMaterials)
  else
    let reservations := pms.map (fun pm =>
      ({ materialId := pm.materialId, quantity := pm.quantity,
         reason := "Reserved for project " ++ toString id ++ " - started" } : Reservation))
    match reserveMaterials w.mdb reservations with
    | (mdb1, .error e) => ({ w with mdb := mdb1 }, .error e)
    | (mdb1, .ok _) =>
      let w' := { w with
        mdb := mdb1,
        projects := w.projects.map
          (fun p => if p.id = id then { p with status := .in_progress } else p) }
      (w', getProjectById w' id)

/-- Concrete project row for the project-service witnesses. -/
def projP : ProjectRow :=
  { id := 1, title := "Beginner Birdhouse", estimatedCost := (1798 : ℚ)/100,
    actualCost := none, status := .planning, completedAtSet := false }

/-- Concrete line-item row: project 1 uses 2 units of material 1. -/
def pmRow1 : ProjectMaterialRow :=
  { id := 1, projectId := 1, materialId := 1, quantity := 2,
    unitPrice := (899 : ℚ)/100, totalPrice := (1798 : ℚ)/100, notes := "" }

/-- Concrete world for the project-service witnesses: catalog `dbR`
(materials 1 and 2, stock 5 each), one project with one line item. -/
def wP : World :=
  { mdb := dbR, projects := [projP], projectMaterials := [pmRow1],
    nextProjectId := 2, nextPmId := 2 }

/-- Concrete empty-ledger world for the create-project witness. -/
def wC5 : World :=
  { mdb := dbR, projects := [], projectMaterials := [],
    nextProjectId := 1, nextPmId := 1 }

/-- The create request of the spec's worked example: 2 units of material 1
(8.99 each) and 1 unit of material 2 (24.99 each). -/
def reqC5 : CreateProjectRequest :=
  { title := "Beginner Birdhouse",
    materials := [{ materialId := 1, quantity := 2 }, { materialId := 2, quantity := 1 }] }

end DIYApi

namespace DIYApi

theorem findMaterialRow_appendAdjustment (db : MaterialsDB) (mid : Nat)
    (qBefore qChange qAfter : Int) (r : String) (j : Nat) :
    findMaterialRow (appendAdjustment db mid qBefore qChange qAfter r) j =
      findMaterialRow db j := rfl

theorem find?_map_set (l : List Material) (id : Nat) (q : Int) :
    (l.map (fun m => if m.id = id then { m with stockQuantity := q } else m)).find?
        (fun m => m.id == id) =
      (l.find? (fun m => m.id == id)).map (fun m => { m with stockQuantity := q }) := by
  induction l with
  | nil => rfl
  | cons a l ih =>
    by_cases ha : a.id = id
    · simp [List.find?_cons, ha, -List.find?_map]
    · simp only [List.map_cons, List.find?_cons]
      have ha' : (a.id == id) = false := by simp [ha]
      have hfa : ((if a.id = id then { a with stockQuantity := q } else a) : Material).id
          = a.id := by simp [ha]
      simp [hfa, ha', -List.find?_map, ih, ha]

theorem findMaterialRow_setStock_self (db : MaterialsDB) (id : Nat) (q : Int) :
    findMaterialRow (setStockQuantity db id q) id =
      (findMaterialRow db id).map (fun m => { m with stockQuantity := q }) := by
  simpa [findMaterialRow, setStockQuantity] using find?_map_set db.materials id q

theorem find?_map_set_ne (l : List Material) (id j : Nat) (q : Int) (hne : j ≠ id) :
    (l.map (fun m => if m.id = id then { m with stockQuantity := q } else m)).find?
        (fun m => m.id == j) =
      l.find? (fun m => m.id == j) := by
  have hij : ¬ id = j := fun h => hne h.symm
  induction l with
  | nil => rfl
  | cons a l ih =>
    simp only [List.map_cons, List.find?_cons]
    by_cases ha : a.id = id
    · have haj : ¬ a.id = j := by rw [ha]; exact hij
      have hidj : (id == j) = false := by simp [hij]
      simp [ha, haj, hidj, -List.find?_map, ih]
    · have hfa : ((if a.id = id then { a with stockQuantity := q } else a) : Material)
          = a := by simp [ha]
      rw [hfa]
      by_cases haj : a.id = j
      · simp [haj, -List.find?_map]
      · simp [haj, -List.find?_map, ih]

theorem findMaterialRow_setStock_ne (db : MaterialsDB) (id j : Nat) (q : Int)
    (hne : j ≠ id) :
    findMaterialRow (setStockQuantity db id q) j = findMaterialRow db j := by
  simpa [findMaterialRow, setStockQuantity] using find?_map_set_ne db.materials id j q hne

/-- Unfolded form of a successful `updateStock`. -/
theorem updateStock_eq_of_found (db : MaterialsDB) (id : Nat) (dq : Int) (r : String)
    (m : Material) (hm : findMaterialRow db id = some m) (hs : ¬ m.stockQuantity + dq < 0) :
    updateStock db id dq r =
      (appendAdjustment (setStockQuantity db id (m.stockQuantity + dq)) id
          m.stockQuantity dq (m.stockQuantity + dq) r,
        getMaterialById
          (appendAdjustment (setStockQuantity db id (m.stockQuantity + dq)) id
            m.stockQuantity dq (m.stockQuantity + dq) r) id) := by
  simp [updateStock, hm, hs]

/-- Shape of a successful `updateStock` call: stock incremented by the delta
and exactly one audit row appended. -/
theorem updateStock_ok_spec (db : MaterialsDB) (id : Nat) (dq : Int) (r : String)
    (mat : Material) (h : (updateStock db id dq r).2 = .ok mat) :
    ∃ m, findMaterialRow db id = some m ∧
      findMaterialRow (updateStock db id dq r).1 id =
        some { m with stockQuantity := m.stockQuantity + dq } ∧
      (updateStock db id dq r).1.adjustments =
        db.adjustments ++
          [{ id := db.nextAdjustmentId, materialId := id,
             quantityBefore := m.stockQuantity, quantityChange := dq,
             quantityAfter := m.stockQuantity + dq, reason := r }] := by
  cases hm : findMaterialRow db id with
  | none => simp [updateStock, hm] at h
  | some m =>
    by_cases hs : m.stockQuantity + dq < 0
    · simp [updateStock, hm, hs] at h
    · have he := updateStock_eq_of_found db id dq r m hm hs
      refine ⟨m, rfl, ?_, ?_⟩
      · rw [he]
        rw [findMaterialRow_appendAdjustment, findMaterialRow_setStock_self, hm]
        rfl
      · rw [he]
        rfl

/-- C1: if AdjustStock (`updateStock`) on material `id` with signed delta `dq`
succeeds, the material's resulting stock equals its stock before the call plus
`dq`, and exactly one new `stock_adjustments` row exists for it whose
`quantity_before` is the old stock, `quantity_change` is `dq`, and
`quantity_after` is the new stock. -/
theorem claim_C1_adjustStock_success (db : MaterialsDB) (id : Nat) (dq : Int) (r : String)
    (mat : Material) (h : (updateStock db id dq r).2 = .ok mat) :
    ∃ m, findMaterialRow db id = some m ∧
      findMaterialRow (updateStock db id dq r).1 id =
        some { m with stockQuantity := m.stockQuantity + dq } ∧
      (updateStock db id dq r).1.adjustments =
        db.adjustments ++
          [{ id := db.nextAdjustmentId, materialId := id,
             quantityBefore := m.stockQuantity, quantityChange := dq,
             quantityAfter := m.stockQuantity + dq, reason := r }] :=
  updateStock_ok_spec db id dq r mat h

/-- Witness for C1 at a concrete input: adding 3 to a stock of 5 succeeds and
leaves stock 8 with one matching audit row. -/
theorem claim_C1_witness :
    (updateStock dbW 1 3 "restock").2 = .ok { matW with stockQuantity := 8 } ∧
      (∃ m, findMaterialRow dbW 1 = some m ∧
        findMaterialRow (updateStock dbW 1 3 "restock").1 1 =
          some { m with stockQuantity := m.stockQuantity + 3 } ∧
        (updateStock dbW 1 3 "restock").1.adjustments =
          dbW.adjustments ++
            [{ id := dbW.nextAdjustmentId, materialId := 1,
               quantityBefore := m.stockQuantity, quantityChange := 3,
               quantityAfter := m.stockQuantity + 3, reason := "restock" }]) :=
  ⟨rfl, claim_C1_adjustStock_success dbW 1 3 "restock" { matW with stockQuantity := 8 } rfl⟩

/-- C2: AdjustStock (`updateStock`) on an existing material fails with
InsufficientStock exactly when current stock plus the delta is negative, and on
that failure the database (stock and audit log) is left unchanged. -/
theorem claim_C2_adjustStock_insufficient (db : MaterialsDB) (id : Nat) (dq : Int)
    (r : String) (m : Material) (hm : findMaterialRow db id = some m) :
    ((updateStock db id dq r).2 = .error .insufficientStock ↔ m.stockQuantity + dq < 0) ∧
      (m.stockQuantity + dq < 0 → (updateStock db id dq r).1 = db) := by
  by_cases hs : m.stockQuantity + dq < 0
  · refine ⟨⟨fun _ => hs, fun _ => ?_⟩, fun _ => ?_⟩
    · simp [updateStock, hm, hs]
    · simp [updateStock, hm, hs]
  · refine ⟨⟨fun hc => ?_, fun hc => absurd hc hs⟩, fun hc => absurd hc hs⟩
    rw [updateStock_eq_of_found db id dq r m hm hs] at hc
    unfold getMaterialById at hc
    cases hfind : (appendAdjustment (setStockQuantity db id (m.stockQuantity + dq)) id
        m.stockQuantity dq (m.stockQuantity + dq) r).materials.find?
        (fun x => x.id == id && x.isActive) with
    | some x => rw [hfind] at hc; simp at hc
    | none => rw [hfind] at hc; simp at hc

/-- Witness for C2 at a concrete input: removing 10 from a stock of 5 fails
with InsufficientStock and leaves the database unchanged. -/
theorem claim_C2_witness :
    findMaterialRow dbW 1 = some matW ∧
      (((updateStock dbW 1 (-10) "use").2 = .error .insufficientStock ↔
          matW.stockQuantity + (-10) < 0) ∧
        (matW.stockQuantity + (-10) < 0 → (updateStock dbW 1 (-10) "use").1 = dbW)) :=
  ⟨rfl, claim_C2_adjustStock_insufficient dbW 1 (-10) "use" matW rfl⟩

/-- One-step unfolding of `reserveMaterials` on a non-empty batch. -/
theorem reserveMaterials_cons (db : MaterialsDB) (r : Reservation)
    (rest : List Reservation) :
    reserveMaterials db (r :: rest) =
      match findMaterialRow db r.materialId with
      | none => (db, .error .notFound)
      | some m =>
        if m.stockQuantity < r.quantity then
          (db, .error .insufficientStock)
        else
          reserveMaterials
            (appendAdjustment (setStockQuantity db r.materialId
                (m.stockQuantity - r.quantity))
              r.materialId m.stockQuantity (-r.quantity)
              (m.stockQuantity - r.quantity) r.reason) rest := rfl

/-- Unfolding of `reserveMaterials` when the first entry's material is absent. -/
theorem reserveMaterials_cons_none (db : MaterialsDB) (r : Reservation)
    (rest : List Reservation) (hf : findMaterialRow db r.materialId = none) :
    reserveMaterials db (r :: rest) = (db, .error .notFound) := by
  rw [reserveMaterials_cons, hf]

/-- Unfolding of `reserveMaterials` when the first entry's material is found. -/
theorem reserveMaterials_cons_some (db : MaterialsDB) (r : Reservation)
    (rest : List Reservation) (m : Material)
    (hf : findMaterialRow db r.materialId = some m) :
    reserveMaterials db (r :: rest) =
      if m.stockQuantity < r.quantity then
        (db, .error .insufficientStock)
      else
        reserveMaterials
          (appendAdjustment (setStockQuantity db r.materialId
              (m.stockQuantity - r.quantity))
            r.materialId m.stockQuantity (-r.quantity)
            (m.stockQuantity - r.quantity) r.reason) rest := by
  rw [reserveMaterials_cons, hf]

/-- A successful prefix of a reservation batch commits its state, and the rest
of the batch then runs from that state. -/
theorem reserveMaterials_append_ok (xs : List Reservation) :
    ∀ (db db₁ : MaterialsDB) (b : Bool) (ys : List Reservation),
      reserveMaterials db xs = (db₁, .ok b) →
      reserveMaterials db (xs ++ ys) = reserveMaterials db₁ ys := by
  induction xs with
  | nil =>
    intro db db₁ b ys h
    simp [reserveMaterials] at h
    rw [List.nil_append, h.1]
  | cons r rest ih =>
    intro db db₁ b ys h
    rw [List.cons_append]
    cases hf : findMaterialRow db r.materialId with
    | none =>
      rw [reserveMaterials_cons_none db r rest hf] at h
      exact absurd (congrArg Prod.snd h) (by simp)
    | some m =>
      rw [reserveMaterials_cons_some db r rest m hf] at h
      rw [reserveMaterials_cons_some db r (rest ++ ys) m hf]
      by_cases hq : m.stockQuantity < r.quantity
      · rw [if_pos hq] at h
        exact absurd (congrArg Prod.snd h) (by simp)
      · rw [if_neg hq] at h
        rw [if_neg hq]
        exact ih _ db₁ b ys h

/-- A reservation entry that fails against the current state throws at once,
leaving the state exactly as it was and discarding the remaining entries. -/
theorem reserveMaterials_fail_head (db : MaterialsDB) (r : Reservation)
    (rest : List Reservation) (h : reservationFails db r = true) :
    ∃ e, reserveMaterials db (r :: rest) = (db, .error e) := by
  unfold reservationFails at h
  cases hf : findMaterialRow db r.materialId with
  | none => exact ⟨.notFound, reserveMaterials_cons_none db r rest hf⟩
  | some m =>
    rw [hf] at h
    simp only [decide_eq_true_eq] at h
    exact ⟨.insufficientStock, by rw [reserveMaterials_cons_some db r rest m hf, if_pos h]⟩

/-- A successful reservation batch appends exactly one audit row per entry. -/
theorem reserveMaterials_ok_adjustments (rs : List Reservation) :
    ∀ (db db' : MaterialsDB) (b : Bool), reserveMaterials db rs = (db', .ok b) →
      ∃ rows, db'.adjustments = db.adjustments ++ rows ∧ rows.length = rs.length := by
  induction rs with
  | nil =>
    intro db db' b h
    simp [reserveMaterials] at h
    exact ⟨[], by rw [← h.1, List.append_nil], rfl⟩
  | cons r rest ih =>
    intro db db' b h
    cases hf : findMaterialRow db r.materialId with
    | none =>
      rw [reserveMaterials_cons_none db r rest hf] at h
      exact absurd (congrArg Prod.snd h) (by simp)
    | some m =>
      rw [reserveMaterials_cons_some db r rest m hf] at h
      by_cases hq : m.stockQuantity < r.quantity
      · rw [if_pos hq] at h
        exact absurd (congrArg Prod.snd h) (by simp)
      · rw [if_neg hq] at h
        obtain ⟨rows, hadj, hlen⟩ := ih _ db' b h
        refine ⟨{ id := db.nextAdjustmentId, materialId := r.materialId,
                  quantityBefore := m.stockQuantity, quantityChange := -r.quantity,
                  quantityAfter := m.stockQuantity - r.quantity,
                  reason := r.reason } :: rows, ?_, by simp [hlen]⟩
        rw [hadj]
        simp [appendAdjustment, setStockQuantity]

/-- C3: a reservation batch is applied entry by entry with no rollback: when a
successful prefix has committed (one stock decrement plus one audit row per
entry) and the next entry fails (material absent or stock below the request),
the whole call fails yet ends in exactly the state the prefix committed, and
the failing entry and all later entries are never applied. -/
theorem claim_C3_reserve_no_rollback (db db₁ : MaterialsDB) (done : List Reservation)
    (bad : Reservation) (rest : List Reservation)
    (h1 : reserveMaterials db done = (db₁, .ok true))
    (h2 : reservationFails db₁ bad = true) :
    (∃ e, reserveMaterials db (done ++ bad :: rest) = (db₁, .error e)) ∧
      ∃ rows, db₁.adjustments = db.adjustments ++ rows ∧ rows.length = done.length := by
  refine ⟨?_, reserveMaterials_ok_adjustments done db db₁ true h1⟩
  obtain ⟨e, he⟩ := reserveMaterials_fail_head db₁ bad rest h2
  exact ⟨e, by rw [reserveMaterials_append_ok done db db₁ true (bad :: rest) h1, he]⟩

/-- Witness for C3 at a concrete input: reserving 2 units of material 1
succeeds, then a request for 10 units of material 2 (stock 5) fails, leaving
the first decrement and its audit row committed. -/
theorem claim_C3_witness :
    reserveMaterials dbR [⟨1, 2, "r1"⟩] = (dbR1, .ok true) ∧
      reservationFails dbR1 ⟨2, 10, "r2"⟩ = true ∧
      ((∃ e, reserveMaterials dbR ([⟨1, 2, "r1"⟩] ++ ⟨2, 10, "r2"⟩ :: [⟨1, 1, "r3"⟩]) =
          (dbR1, .error e)) ∧
        ∃ rows, dbR1.adjustments = dbR.adjustments ++ rows ∧
          rows.length = [(⟨1, 2, "r1"⟩ : Reservation)].length) :=
  ⟨rfl, rfl,
    claim_C3_reserve_no_rollback dbR dbR1 [⟨1, 2, "r1"⟩] ⟨2, 10, "r2"⟩ [⟨1, 1, "r3"⟩]
      rfl rfl⟩

/-- The general material-update endpoint never writes an audit row. -/
theorem updateMaterial_adjustments (db : MaterialsDB) (id : Nat)
    (u : UpdateMaterialRequest) :
    (updateMaterial db id u).1.adjustments = db.adjustments := by
  unfold updateMaterial
  split <;> rfl

/-- C6 counterexample: `updateMaterial` with `stockQuantity` provided changes
the stock (here 5 to 10) while appending no audit row, so not every stock
mutation of the Materials Catalog is recorded in `stock_adjustments`. -/
theorem claim_C6_counterexample :
    (findMaterialRow (updateMaterial dbW 1 uStock).1 1).map Material.stockQuantity =
        some 10 ∧
      (findMaterialRow dbW 1).map Material.stockQuantity = some 5 ∧
      (updateMaterial dbW 1 uStock).1.adjustments = dbW.adjustments :=
  ⟨rfl, rfl, rfl⟩

/-- C6 amended: stock changes that go through AdjustStock (`updateStock`)
append exactly one matching audit row, but the general update endpoint
(`updateMaterial`) can set `stock_quantity` directly and never appends an
audit row, so the universal claim over all code paths fails only there. -/
theorem claim_C6_amended_audit (db : MaterialsDB) (id : Nat) (dq : Int) (r : String)
    (u : UpdateMaterialRequest) (mat : Material)
    (h : (updateStock db id dq r).2 = .ok mat) :
    (∃ row, (updateStock db id dq r).1.adjustments = db.adjustments ++ [row] ∧
        row.materialId = id ∧ row.quantityChange = dq ∧
        row.quantityAfter = row.quantityBefore + dq) ∧
      (updateMaterial db id u).1.adjustments = db.adjustments := by
  refine ⟨?_, updateMaterial_adjustments db id u⟩
  obtain ⟨m, _, _, hadj⟩ := updateStock_ok_spec db id dq r mat h
  exact ⟨_, hadj, rfl, rfl, rfl⟩

/-- C9: a material returned by any search with `lowStock = true` is active with
`0 < stock_quantity <= min_stock_level`; and with only the `lowStock` filter
set and pagination wide enough, the returned page is exactly the set of such
materials — in particular a zero-stock material is excluded even when its
minimum stock level is positive. -/
theorem claim_C9_lowStock_filter (db : MaterialsDB) (p : MaterialSearchParams)
    (lim : Nat) (m : Material) (hl : p.lowStock = true)
    (hlim : db.materials.length ≤ lim) :
    (m ∈ (listMaterials db p).materials →
        m.isActive = true ∧ 0 < m.stockQuantity ∧ m.stockQuantity ≤ m.minStockLevel) ∧
      (m ∈ (listMaterials db { lowStock := true, limit := lim }).materials ↔
        m ∈ db.materials ∧ m.isActive = true ∧ 0 < m.stockQuantity ∧
          m.stockQuantity ≤ m.minStockLevel) := by
  constructor
  · intro hm
    have h1 : m ∈ sortByName (db.materials.filter (materialMatches p)) :=
      List.mem_of_mem_drop (List.mem_of_mem_take hm)
    have h2 : m ∈ db.materials.filter (materialMatches p) :=
      (List.mem_insertionSort _).mp h1
    have h3 := (List.mem_filter.mp h2).2
    simp only [materialMatches, hl, if_true, Bool.and_eq_true, decide_eq_true_eq] at h3
    exact ⟨h3.1.1.1.1, h3.2.2, h3.2.1⟩
  · have hlen : (sortByName (db.materials.filter
        (materialMatches { lowStock := true, limit := lim }))).length ≤ lim := by
      have hperm := (List.perm_insertionSort (fun a b : Material => a.name ≤ b.name)
        (db.materials.filter (materialMatches { lowStock := true, limit := lim }))).length_eq
      rw [sortByName, hperm]
      exact le_trans (List.length_filter_le _ _) hlim
    have hpage : (listMaterials db { lowStock := true, limit := lim }).materials =
        sortByName (db.materials.filter (materialMatches { lowStock := true, limit := lim })) := by
      show ((sortByName _).drop 0).take lim = _
      rw [List.drop_zero, List.take_of_length_le hlen]
    rw [hpage, sortByName, List.mem_insertionSort, List.mem_filter]
    constructor
    · rintro ⟨hmem, hmatch⟩
      simp [materialMatches] at hmatch
      exact ⟨hmem, hmatch.1, hmatch.2.2, hmatch.2.1⟩
    · rintro ⟨hmem, hact, hpos, hle⟩
      refine ⟨hmem, ?_⟩
      simp [materialMatches, hact, hpos, hle]

/-- Witness for C9 at a concrete input: a three-material catalog, checking the
zero-stock material with positive minimum level. -/
theorem claim_C9_witness :
    ({ lowStock := true } : MaterialSearchParams).lowStock = true ∧
      dbL9.materials.length ≤ 20 ∧
      ((matZero ∈ (listMaterials dbL9 { lowStock := true }).materials →
          matZero.isActive = true ∧ 0 < matZero.stockQuantity ∧
            matZero.stockQuantity ≤ matZero.minStockLevel) ∧
        (matZero ∈ (listMaterials dbL9 { lowStock := true, limit := 20 }).materials ↔
          matZero ∈ dbL9.materials ∧ matZero.isActive = true ∧
            0 < matZero.stockQuantity ∧
            matZero.stockQuantity ≤ matZero.minStockLevel)) :=
  ⟨rfl, by decide, claim_C9_lowStock_filter dbL9 { lowStock := true } 20 matZero rfl (by decide)⟩

/-- `find?` by id over an id-preserving conditional map rewrites to a map on
the result. -/
theorem find?_map_update (l : List ProjectRow) (id : Nat) (f : ProjectRow → ProjectRow)
    (hf : ∀ p, (f p).id = p.id) :
    (l.map (fun p => if p.id = id then f p else p)).find? (fun p => p.id == id) =
      (l.find? (fun p => p.id == id)).map f := by
  induction l with
  | nil => rfl
  | cons a l ih =>
    simp only [List.map_cons, List.find?_cons]
    by_cases ha : a.id = id
    · simp [ha, hf, -List.find?_map]
    · have ha' : (a.id == id) = false := by simp [ha]
      simp [ha, ha', -List.find?_map, ih]

/-- The insert loop appends exactly the expected rows and touches nothing
else of the world. -/
theorem insertPmRows_spec (items : List LineItemReq) :
    ∀ (w : World) (pid : Nat) (pricing : Nat → Option Pricing),
      (insertPmRows w pid pricing items).projectMaterials =
          w.projectMaterials ++ expectedPmRows pid w.nextPmId pricing items ∧
        (insertPmRows w pid pricing items).projects = w.projects ∧
        (insertPmRows w pid pricing items).mdb = w.mdb := by
  induction items with
  | nil =>
    intro w pid pricing
    simp [insertPmRows, expectedPmRows]
  | cons it rest ih =>
    intro w pid pricing
    obtain ⟨h1, h2, h3⟩ := ih
      { w with
        projectMaterials := w.projectMaterials ++
          [{ id := w.nextPmId, projectId := pid, materialId := it.materialId,
             quantity := it.quantity,
             unitPrice := ((pricing it.materialId).map Pricing.price).getD 0,
             totalPrice := (it.quantity : ℚ) *
               (((pricing it.materialId).map Pricing.price).getD 0),
             notes := it.notes }],
        nextPmId := w.nextPmId + 1 }
      pid pricing
    refine ⟨?_, h2, h3⟩
    exact h1.trans (by simp [expectedPmRows, List.append_assoc])

/-- When every lookup succeeds, the pricing loop returns the expected sum. -/
theorem computeCost_ok (pricing : Nat → Option Pricing) :
    ∀ items : List LineItemReq, (∀ it ∈ items, (pricing it.materialId).isSome) →
      computeCost pricing items = .ok (expectedCost pricing items) := by
  intro items
  induction items with
  | nil => intro _; simp [computeCost, expectedCost]
  | cons it rest ih =>
    intro h
    cases hp : pricing it.materialId with
    | none =>
      have := h it (List.mem_cons_self it rest)
      rw [hp] at this
      simp at this
    | some pr =>
      have hrest := ih (fun x hx => h x (List.mem_cons_of_mem _ hx))
      simp [computeCost, hp, hrest, expectedCost]

/-- A line item whose id is absent from the pricing map makes the pricing
loop throw MaterialNotFound. -/
theorem computeCost_err (pricing : Nat → Option Pricing) :
    ∀ items : List LineItemReq, (∃ it ∈ items, pricing it.materialId = none) →
      computeCost pricing items = .error .materialNotFound := by
  intro items
  induction items with
  | nil => rintro ⟨it, h, -⟩; exact absurd h (List.not_mem_nil it)
  | cons it rest ih =>
    rintro ⟨x, hx, hnone⟩
    cases hp : pricing it.materialId with
    | none => simp [computeCost, hp]
    | some pr =>
      rcases List.mem_cons.mp hx with he | hxr
      · rw [he] at hnone
        rw [hnone] at hp
        exact absurd hp (by simp)
      · have := ih ⟨x, hxr, hnone⟩
        simp [computeCost, hp, this]

/-- Every row the insert loop produces carries the target project id. -/
theorem expectedPmRows_projectId (pricing : Nat → Option Pricing) (pid : Nat) :
    ∀ (items : List LineItemReq) (s : Nat),
      ∀ row ∈ expectedPmRows pid s pricing items, row.projectId = pid := by
  intro items
  induction items with
  | nil => intro s row hrow; exact absurd hrow (List.not_mem_nil row)
  | cons it rest ih =>
    intro s row hrow
    rcases List.mem_cons.mp hrow with he | hr
    · rw [he]
    · exact ih (s + 1) row hr

/-- `getProjectById` on a state whose project lookup is known. -/
theorem getProjectById_of_find (w : World) (id : Nat) (p : ProjectRow)
    (hp : w.projects.find? (fun q => q.id == id) = some p) :
    getProjectById w id =
      .ok (p, w.projectMaterials.filter (fun pm => pm.projectId == id)) := by
  simp [getProjectById, hp]

/-- C5: createProject fails with MaterialNotFound (changing nothing) when any
requested material id is absent from the pricing result; otherwise it returns
the stored project, whose estimated cost is the sum over line items of
quantity times that material's unit price at creation, together with one
project_materials row per line item snapshotting that unit price and the
quantity-times-price total. -/
theorem claim_C5_createProject (w : World) (req : CreateProjectRequest)
    (hfp : ∀ q ∈ w.projects, q.id ≠ w.nextProjectId)
    (hfpm : ∀ pm ∈ w.projectMaterials, pm.projectId ≠ w.nextProjectId) :
    ((∃ it ∈ req.materials,
        getMaterialPricing w.mdb (req.materials.map (·.materialId)) it.materialId = none) →
      createProject w req = (w, .error .materialNotFound)) ∧
    ((∀ it ∈ req.materials,
        (getMaterialPricing w.mdb (req.materials.map (·.materialId)) it.materialId).isSome) →
      (createProject w req).2 = .ok
        ({ id := w.nextProjectId, title := req.title,
           estimatedCost := expectedCost
             (getMaterialPricing w.mdb (req.materials.map (·.materialId))) req.materials,
           actualCost := none, status := .planning, completedAtSet := false },
         expectedPmRows w.nextProjectId w.nextPmId
           (getMaterialPricing w.mdb (req.materials.map (·.materialId))) req.materials) ∧
      (createProject w req).1.projectMaterials =
        w.projectMaterials ++ expectedPmRows w.nextProjectId w.nextPmId
          (getMaterialPricing w.mdb (req.materials.map (·.materialId))) req.materials) := by
  constructor
  · intro hmiss
    have hcc := computeCost_err _ req.materials hmiss
    simp [createProject, hcc]
  · intro hall
    have hcc := computeCost_ok _ req.materials hall
    obtain ⟨hpm, hprj, -⟩ := insertPmRows_spec req.materials
      { w with
        projects := w.projects ++
          [{ id := w.nextProjectId, title := req.title,
             estimatedCost := expectedCost
               (getMaterialPricing w.mdb (req.materials.map (·.materialId))) req.materials,
             actualCost := none, status := .planning, completedAtSet := false }],
        nextProjectId := w.nextProjectId + 1 }
      w.nextProjectId (getMaterialPricing w.mdb (req.materials.map (·.materialId)))
    have hfind : (insertPmRows
        { w with
          projects := w.projects ++
            [{ id := w.nextProjectId, title := req.title,
               estimatedCost := expectedCost
                 (getMaterialPricing w.mdb (req.materials.map (·.materialId))) req.materials,
               actualCost := none, status := .planning, completedAtSet := false }],
          nextProjectId := w.nextProjectId + 1 }
        w.nextProjectId (getMaterialPricing w.mdb (req.materials.map (·.materialId)))
        req.materials).projects.find? (fun q => q.id == w.nextProjectId) =
        some { id := w.nextProjectId, title := req.title,
               estimatedCost := expectedCost
                 (getMaterialPricing w.mdb (req.materials.map (·.materialId))) req.materials,
               actualCost := none, status := .planning, completedAtSet := false } := by
      rw [hprj]
      show (w.projects ++ [_]).find? _ = _
      rw [List.find?_append]
      have hnone : w.projects.find? (fun q => q.id == w.nextProjectId) = none :=
        List.find?_eq_none.mpr (fun x hx => by simp [hfp x hx])
      rw [hnone]
      simp
    have hfilter : (insertPmRows
        { w with
          projects := w.projects ++
            [{ id := w.nextProjectId, title := req.title,
               estimatedCost := expectedCost
                 (getMaterialPricing w.mdb (req.materials.map (·.materialId))) req.materials,
               actualCost := none, status := .planning, completedAtSet := false }],
          nextProjectId := w.nextProjectId + 1 }
        w.nextProjectId (getMaterialPricing w.mdb (req.materials.map (·.materialId)))
        req.materials).projectMaterials.filter (fun pm => pm.projectId == w.nextProjectId) =
        expectedPmRows w.nextProjectId w.nextPmId
          (getMaterialPricing w.mdb (req.materials.map (·.materialId))) req.materials := by
      rw [hpm]
      show (w.projectMaterials ++ _).filter _ = _
      rw [List.filter_append]
      have h1 : w.projectMaterials.filter (fun pm => pm.projectId == w.nextProjectId) = [] :=
        List.filter_eq_nil_iff.mpr (fun pm hpmm => by simp [hfpm pm hpmm])
      have h2 : (expectedPmRows w.nextProjectId w.nextPmId
            (getMaterialPricing w.mdb (req.materials.map (·.materialId)))
            req.materials).filter (fun pm => pm.projectId == w.nextProjectId) =
          expectedPmRows w.nextProjectId w.nextPmId
            (getMaterialPricing w.mdb (req.materials.map (·.materialId))) req.materials :=
        List.filter_eq_self.mpr (fun row hrow => by
          simp [expectedPmRows_projectId _ w.nextProjectId req.materials w.nextPmId row hrow])
      rw [h1, h2, List.nil_append]
    constructor
    · show (createProject w req).2 = _
      simp only [createProject, hcc]
      rw [getProjectById_of_find _ _ _ hfind, hfilter]
    · show (createProject w req).1.projectMaterials = _
      simp only [createProject, hcc]
      exact hpm.trans rfl

/-- Witness for C5 at the spec's worked example: 2 units at 8.99 and 1 unit
at 24.99 give an estimated cost of 42.97. -/
theorem claim_C5_witness :
    (∀ q ∈ wC5.projects, q.id ≠ wC5.nextProjectId) ∧
      (∀ pm ∈ wC5.projectMaterials, pm.projectId ≠ wC5.nextProjectId) ∧
      expectedCost (getMaterialPricing wC5.mdb (reqC5.materials.map (·.materialId)))
          reqC5.materials = (4297 : ℚ)/100 ∧
      (((∃ it ∈ reqC5.materials,
          getMaterialPricing wC5.mdb (reqC5.materials.map (·.materialId)) it.materialId
            = none) →
        createProject wC5 reqC5 = (wC5, .error .materialNotFound)) ∧
      ((∀ it ∈ reqC5.materials,
          (getMaterialPricing wC5.mdb (reqC5.materials.map (·.materialId))
            it.materialId).isSome) →
        (createProject wC5 reqC5).2 = .ok
          ({ id := wC5.nextProjectId, title := reqC5.title,
             estimatedCost := expectedCost
               (getMaterialPricing wC5.mdb (reqC5.materials.map (·.materialId)))
               reqC5.materials,
             actualCost := none, status := .planning, completedAtSet := false },
           expectedPmRows wC5.nextProjectId wC5.nextPmId
             (getMaterialPricing wC5.mdb (reqC5.materials.map (·.materialId)))
             reqC5.materials) ∧
        (createProject wC5 reqC5).1.projectMaterials =
          wC5.projectMaterials ++ expectedPmRows wC5.nextProjectId wC5.nextPmId
            (getMaterialPricing wC5.mdb (reqC5.materials.map (·.materialId)))
            reqC5.materials)) :=
  ⟨by decide, by decide,
    by norm_num [expectedCost, getMaterialPricing, wC5, reqC5, dbR, matW, matW2],
    claim_C5_createProject wC5 reqC5 (by decide) (by decide)⟩

/-- `applyProjectUpdates` never changes the row id. -/
theorem applyProjectUpdates_id (p : ProjectRow) (u : UpdateProjectRequest) :
    (applyProjectUpdates p u).id = p.id := by
  unfold applyProjectUpdates
  split <;> split <;> rfl

/-- C7 counterexample: an update whose `materials` field is the empty list does
not replace the line items — the prior project_materials row survives and the
call fails — because the replacement branch requires `materials.length > 0`. -/
theorem claim_C7_counterexample :
    updateProject wP 1 { materials := some [] } = (wP, .error .sqlError) ∧
      (wP.projectMaterials.filter (fun pm => pm.projectId == 1)).length = 1 :=
  ⟨rfl, rfl⟩

/-- C7 amended: when the `materials` field is present and NON-EMPTY the update
is a full replacement — every new line item re-priced (MaterialNotFound if any
id is absent, with nothing changed), the estimated cost recomputed, all prior
project_materials rows of the project deleted and the new set inserted; a
present-but-EMPTY materials list does not replace: the prior rows are kept and
the request fails, because the surviving `materials` key makes the dynamic
UPDATE reference a column the projects table does not have. -/
theorem claim_C7_amended_replacement (w : World) (id : Nat) (ms : List LineItemReq)
    (p : ProjectRow) (hne : ms ≠ [])
    (hp : w.projects.find? (fun q => q.id == id) = some p) :
    ((∀ it ∈ ms, (getMaterialPricing w.mdb (ms.map (·.materialId)) it.materialId).isSome) →
      (updateProject w id { materials := some ms }).1.projectMaterials =
          w.projectMaterials.filter (fun pm => pm.projectId != id) ++
            expectedPmRows id w.nextPmId
              (getMaterialPricing w.mdb (ms.map (·.materialId))) ms ∧
        (updateProject w id { materials := some ms }).1.projects.find?
            (fun q => q.id == id) =
          some { p with
            estimatedCost :=
              expectedCost (getMaterialPricing w.mdb (ms.map (·.materialId))) ms }) ∧
      ((∃ it ∈ ms, getMaterialPricing w.mdb (ms.map (·.materialId)) it.materialId = none) →
        updateProject w id { materials := some ms } = (w, .error .materialNotFound)) ∧
      updateProject w id { materials := some [] } = (w, .error .sqlError) := by
  have hms : ms.isEmpty = false := by
    cases ms with
    | nil => exact absurd rfl hne
    | cons a l => rfl
  refine ⟨?_, ?_, rfl⟩
  · intro hall
    have hcc := computeCost_ok _ ms hall
    obtain ⟨hpm2, hprj2, -⟩ := insertPmRows_spec ms
      { w with projectMaterials := w.projectMaterials.filter (fun pm => pm.projectId != id) }
      id (getMaterialPricing w.mdb (ms.map (·.materialId)))
    constructor
    · show (updateProject w id { materials := some ms }).1.projectMaterials = _
      simp only [updateProject, hms, hcc, updateProjectFields,
        UpdateProjectRequest.hasField]
      simp only [Option.isSome_none, Bool.false_eq_true, if_false, Option.isSome_some,
        Bool.or_true, Bool.true_or, if_true]
      exact hpm2.trans rfl
    · show (updateProject w id { materials := some ms }).1.projects.find? _ = _
      simp only [updateProject, hms, hcc, updateProjectFields,
        UpdateProjectRequest.hasField]
      simp only [Option.isSome_none, Bool.false_eq_true, if_false, Option.isSome_some,
        Bool.or_true, Bool.true_or, if_true]
      rw [hprj2]
      rw [find?_map_update w.projects id _ (fun q => applyProjectUpdates_id q _)]
      rw [hp]
      rfl
  · intro hmiss
    have hcc := computeCost_err _ ms hmiss
    simp [updateProject, hms, hcc]

/-- Witness for the amended C7 at a concrete input: replacing project 1's line
items by 3 units of material 2. -/
theorem claim_C7_witness :
    ([({ materialId := 2, quantity := 3 } : LineItemReq)] ≠ []) ∧
      wP.projects.find? (fun q => q.id == 1) = some projP ∧
      (((∀ it ∈ [({ materialId := 2, quantity := 3 } : LineItemReq)],
          (getMaterialPricing wP.mdb
            ([({ materialId := 2, quantity := 3 } : LineItemReq)].map (·.materialId))
            it.materialId).isSome) →
        (updateProject wP 1
            { materials := some [{ materialId := 2, quantity := 3 }] }).1.projectMaterials =
            wP.projectMaterials.filter (fun pm => pm.projectId != 1) ++
              expectedPmRows 1 wP.nextPmId
                (getMaterialPricing wP.mdb
                  ([({ materialId := 2, quantity := 3 } : LineItemReq)].map (·.materialId)))
                [{ materialId := 2, quantity := 3 }] ∧
          (updateProject wP 1
              { materials := some [{ materialId := 2, quantity := 3 }] }).1.projects.find?
              (fun q => q.id == 1) =
            some { projP with
              estimatedCost :=
                expectedCost
                  (getMaterialPricing wP.mdb
                    ([({ materialId := 2, quantity := 3 } : LineItemReq)].map (·.materialId)))
                  [{ materialId := 2, quantity := 3 }] }) ∧
        ((∃ it ∈ [({ materialId := 2, quantity := 3 } : LineItemReq)],
            getMaterialPricing wP.mdb
              ([({ materialId := 2, quantity := 3 } : LineItemReq)].map (·.materialId))
              it.materialId = none) →
          updateProject wP 1 { materials := some [{ materialId := 2, quantity := 3 }] } =
            (wP, .error .materialNotFound)) ∧
        updateProject wP 1 { materials := some [] } = (wP, .error .sqlError)) :=
  ⟨by decide, rfl,
    claim_C7_amended_replacement wP 1 [{ materialId := 2, quantity := 3 }] projP
      (by decide) rfl⟩

/-- C8 evaluated at the failing input: project 1 exists, `deleteProject`
removes its line items and its row and leaves the materials untouched, yet
reports NotFound — the result-row check of a DELETE without RETURNING is
always empty, so the error is raised for existing and absent projects alike,
contradicting "fails with NotFound exactly when the project did not exist". -/
theorem claim_C8_delete_codebug :
    wP.projects.find? (fun q => q.id == 1) = some projP ∧
      (deleteProject wP 1).2 = .error .notFound ∧
      (deleteProject wP 1).1.projects.find? (fun q => q.id == 1) = none ∧
      (deleteProject wP 1).1.projectMaterials.filter (fun pm => pm.projectId == 1) = [] ∧
      getProjectById (deleteProject wP 1).1 1 = .error .notFound ∧
      (deleteProject wP 1).1.mdb = wP.mdb ∧
      ∀ (w : World) (id : Nat), (deleteProject w id).2 = .error .notFound :=
  ⟨rfl, rfl, rfl, rfl, rfl, rfl, fun _ _ => rfl⟩

/-- A reservation batch over pairwise-distinct materials, each with stock at
least the requested quantity, succeeds and decrements exactly those stocks. -/
theorem reserveMaterials_ok_of_sufficient (rs : List Reservation) :
    ∀ db : MaterialsDB,
      (rs.map (fun r => r.materialId)).Nodup →
      (∀ r ∈ rs, ∃ m, findMaterialRow db r.materialId = some m ∧
        r.quantity ≤ m.stockQuantity) →
      ∃ db', reserveMaterials db rs = (db', .ok true) ∧
        (∀ r ∈ rs, ∀ m, findMaterialRow db r.materialId = some m →
          findMaterialRow db' r.materialId =
            some { m with stockQuantity := m.stockQuantity - r.quantity }) ∧
        (∀ x, x ∉ rs.map (fun r => r.materialId) →
          findMaterialRow db' x = findMaterialRow db x) := by
  induction rs with
  | nil =>
    intro db _ _
    exact ⟨db, rfl, by simp, fun x _ => rfl⟩
  | cons r rest ih =>
    intro db hnodup hsuff
    obtain ⟨m, hm, hq⟩ := hsuff r (List.mem_cons_self r rest)
    have hnotlt : ¬ m.stockQuantity < r.quantity := not_lt.mpr hq
    have hnodup_rest : (rest.map (fun x => x.materialId)).Nodup :=
      (List.nodup_cons.mp (by simpa using hnodup)).2
    have hhead_notin : r.materialId ∉ rest.map (fun x => x.materialId) :=
      (List.nodup_cons.mp (by simpa using hnodup)).1
    have hframe2 : ∀ x, x ≠ r.materialId →
        findMaterialRow (appendAdjustment (setStockQuantity db r.materialId
            (m.stockQuantity - r.quantity)) r.materialId m.stockQuantity
            (-r.quantity) (m.stockQuantity - r.quantity) r.reason) x =
          findMaterialRow db x := by
      intro x hx
      rw [findMaterialRow_appendAdjustment]
      exact findMaterialRow_setStock_ne db r.materialId x _ hx
    have hself : findMaterialRow (appendAdjustment (setStockQuantity db r.materialId
        (m.stockQuantity - r.quantity)) r.materialId m.stockQuantity
        (-r.quantity) (m.stockQuantity - r.quantity) r.reason) r.materialId =
        some { m with stockQuantity := m.stockQuantity - r.quantity } := by
      rw [findMaterialRow_appendAdjustment, findMaterialRow_setStock_self, hm]
      rfl
    have hsuff_rest : ∀ r' ∈ rest, ∃ m',
        findMaterialRow (appendAdjustment (setStockQuantity db r.materialId
            (m.stockQuantity - r.quantity)) r.materialId m.stockQuantity
            (-r.quantity) (m.stockQuantity - r.quantity) r.reason) r'.materialId =
          some m' ∧ r'.quantity ≤ m'.stockQuantity := by
      intro r' hr'
      obtain ⟨m', hm', hq'⟩ := hsuff r' (List.mem_cons_of_mem _ hr')
      have hx : r'.materialId ≠ r.materialId := by
        intro he
        exact hhead_notin (he ▸ List.mem_map_of_mem (fun x => x.materialId) hr')
      exact ⟨m', (hframe2 _ hx).trans hm', hq'⟩
    obtain ⟨db', hrun, hdec, hframe'⟩ := ih _ hnodup_rest hsuff_rest
    refine ⟨db', ?_, ?_, ?_⟩
    · rw [reserveMaterials_cons_some db r rest m hm, if_neg hnotlt]
      exact hrun
    · intro r' hr' m' hm'
      rcases List.mem_cons.mp hr' with he | hr'
      · have hmm : m' = m := by
          rw [he] at hm'
          rw [hm] at hm'
          exact (Option.some.inj hm').symm
        rw [he, hmm]
        rw [hframe' r.materialId hhead_notin]
        exact hself
      · have hx : r'.materialId ≠ r.materialId := by
          intro he
          exact hhead_notin (he ▸ List.mem_map_of_mem (fun x => x.materialId) hr')
        exact hdec r' hr' m' ((hframe2 _ hx).trans hm')
    · intro x hx
      have hx1 : x ∉ rest.map (fun x => x.materialId) := by
        intro hmem
        exact hx (by simpa using Or.inr (by simpa using hmem))
      have hx2 : x ≠ r.materialId := by
        intro he
        exact hx (by simp [he])
      rw [hframe' x hx1, hframe2 x hx2]

/-- Shape of a successful `startProject`: one reservation per line item is
committed, the status becomes in_progress, and the line items are untouched;
the project's previous status is never consulted. -/
theorem startProject_ok_spec (w : World) (id : Nat) (p : ProjectRow)
    (pms : List ProjectMaterialRow)
    (hpms : pms = w.projectMaterials.filter (fun pm => pm.projectId == id))
    (hp : w.projects.find? (fun q => q.id == id) = some p)
    (hne : pms ≠ [])
    (hnodup : (pms.map (fun pm => pm.materialId)).Nodup)
    (hsuff : ∀ pm ∈ pms, ∃ m, findMaterialRow w.mdb pm.materialId = some m ∧
      pm.quantity ≤ m.stockQuantity) :
    ∃ w', (∃ v, startProject w id = (w', .ok v)) ∧
      w'.projectMaterials = w.projectMaterials ∧
      w'.projects.find? (fun q => q.id == id) = some { p with status := .in_progress } ∧
      (∀ pm ∈ pms, ∀ m, findMaterialRow w.mdb pm.materialId = some m →
        findMaterialRow w'.mdb pm.materialId =
          some { m with stockQuantity := m.stockQuantity - pm.quantity }) ∧
      (∀ x, x ∉ pms.map (fun pm => pm.materialId) →
        findMaterialRow w'.mdb x = findMaterialRow w.mdb x) := by
  have hempty : pms.isEmpty = false := by
    cases pms with
    | nil => exact absurd rfl hne
    | cons a l => rfl
  have hmap : ((pms.map (fun pm =>
      ({ materialId := pm.materialId, quantity := pm.quantity,
         reason := "Reserved for project " ++ toString id ++ " - started" } :
        Reservation))).map (fun r => r.materialId)) =
      pms.map (fun pm => pm.materialId) := by
    rw [List.map_map]
    rfl
  have hsuff' : ∀ r ∈ pms.map (fun pm =>
      ({ materialId := pm.materialId, quantity := pm.quantity,
         reason := "Reserved for project " ++ toString id ++ " - started" } :
        Reservation)),
      ∃ m, findMaterialRow w.mdb r.materialId = some m ∧
        r.quantity ≤ m.stockQuantity := by
    intro r hr
    obtain ⟨pm, hpm, heq⟩ := List.mem_map.mp hr
    rw [← heq]
    exact hsuff pm hpm
  obtain ⟨mdb', hrun, hdec, hframe⟩ := reserveMaterials_ok_of_sufficient _ w.mdb
    (by rw [hmap]; exact hnodup) hsuff'
  have hfindW : (w.projects.map
      (fun q => if q.id = id then { q with status := .in_progress } else q)).find?
      (fun q => q.id == id) = some { p with status := .in_progress } := by
    rw [find?_map_update w.projects id (fun q => { q with status := .in_progress })
      (fun q => rfl), hp]
    rfl
  refine ⟨{ w with
      mdb := mdb',
      projects := w.projects.map
        (fun q => if q.id = id then { q with status := .in_progress } else q) },
    ⟨({ p with status := .in_progress },
      w.projectMaterials.filter (fun pm => pm.projectId == id)), ?_⟩,
    rfl, hfindW, ?_, ?_⟩
  · simp only [startProject, ← hpms, hempty, Bool.false_eq_true, if_false, hrun]
    have hget := getProjectById_of_find
      { w with
        mdb := mdb',
        projects := w.projects.map
          (fun q => if q.id = id then { q with status := .in_progress } else q) }
      id { p with status := .in_progress } hfindW
    rw [hget, ← hpms]
  · intro pm hpm m hm
    exact hdec _ (List.mem_map_of_mem _ hpm) m hm
  · intro x hx
    refine hframe x ?_
    rw [hmap]
    exact hx

/-- C4: Start on a project with no line items fails with NoMaterials and
changes nothing (in particular the status); Start on a project whose line
items all have sufficient stock succeeds, sets the status to in_progress, and
decrements each referenced material's stock by exactly that line item's
quantity. -/
theorem claim_C4_startProject (w : World) (id : Nat) (p : ProjectRow)
    (hp : w.projects.find? (fun q => q.id == id) = some p) :
    (w.projectMaterials.filter (fun pm => pm.projectId == id) = [] →
        startProject w id = (w, .error .noMaterials)) ∧
      (∀ pms : List ProjectMaterialRow,
        pms = w.projectMaterials.filter (fun pm => pm.projectId == id) →
        pms ≠ [] →
        (pms.map (fun pm => pm.materialId)).Nodup →
        (∀ pm ∈ pms, ∃ m, findMaterialRow w.mdb pm.materialId = some m ∧
          pm.quantity ≤ m.stockQuantity) →
        ∃ w' v, startProject w id = (w', .ok v) ∧
          w'.projects.find? (fun q => q.id == id) =
            some { p with status := .in_progress } ∧
          ∀ pm ∈ pms, ∀ m, findMaterialRow w.mdb pm.materialId = some m →
            findMaterialRow w'.mdb pm.materialId =
              some { m with stockQuantity := m.stockQuantity - pm.quantity }) := by
  constructor
  · intro hfe
    simp [startProject, hfe]
  · intro pms hpms hne hnodup hsuff
    obtain ⟨w', ⟨v, hrun⟩, -, hfind, hdec, -⟩ :=
      startProject_ok_spec w id p pms hpms hp hne hnodup hsuff
    exact ⟨w', v, hrun, hfind, hdec⟩

/-- Witness for C4 at a concrete input: project 1 of `wP` has one line item
(2 units of material 1, stock 5). -/
theorem claim_C4_witness :
    wP.projects.find? (fun q => q.id == 1) = some projP ∧
      ((wP.projectMaterials.filter (fun pm => pm.projectId == 1) = [] →
          startProject wP 1 = (wP, .error .noMaterials)) ∧
        (∀ pms : List ProjectMaterialRow,
          pms = wP.projectMaterials.filter (fun pm => pm.projectId == 1) →
          pms ≠ [] →
          (pms.map (fun pm => pm.materialId)).Nodup →
          (∀ pm ∈ pms, ∃ m, findMaterialRow wP.mdb pm.materialId = some m ∧
            pm.quantity ≤ m.stockQuantity) →
          ∃ w' v, startProject wP 1 = (w', .ok v) ∧
            w'.projects.find? (fun q => q.id == 1) =
              some { projP with status := .in_progress } ∧
            ∀ pm ∈ pms, ∀ m, findMaterialRow wP.mdb pm.materialId = some m →
              findMaterialRow w'.mdb pm.materialId =
                some { m with stockQuantity := m.stockQuantity - pm.quantity })) :=
  ⟨rfl, claim_C4_startProject wP 1 projP rfl⟩

/-- C10: `startProject` never inspects the current status: from any status,
a project with at least one line item and stock for two rounds can be started
twice in a row, both calls succeed, and each referenced material's stock is
decremented twice (by `2 * quantity` in total). -/
theorem claim_C10_start_ignores_status (w : World) (id : Nat) (p : ProjectRow)
    (pms : List ProjectMaterialRow)
    (hpms : pms = w.projectMaterials.filter (fun pm => pm.projectId == id))
    (hp : w.projects.find? (fun q => q.id == id) = some p)
    (hne : pms ≠ [])
    (hnodup : (pms.map (fun pm => pm.materialId)).Nodup)
    (hsuff : ∀ pm ∈ pms, ∃ m, findMaterialRow w.mdb pm.materialId = some m ∧
      0 ≤ pm.quantity ∧ 2 * pm.quantity ≤ m.stockQuantity) :
    ∃ w₁ v₁ w₂ v₂, startProject w id = (w₁, .ok v₁) ∧
      startProject w₁ id = (w₂, .ok v₂) ∧
      w₂.projects.find? (fun q => q.id == id) =
        some { p with status := .in_progress } ∧
      ∀ pm ∈ pms, ∀ m, findMaterialRow w.mdb pm.materialId = some m →
        findMaterialRow w₂.mdb pm.materialId =
          some { m with stockQuantity := m.stockQuantity - 2 * pm.quantity } := by
  have hsuff₁ : ∀ pm ∈ pms, ∃ m, findMaterialRow w.mdb pm.materialId = some m ∧
      pm.quantity ≤ m.stockQuantity := by
    intro pm hpm
    obtain ⟨m, hm, h0, h2⟩ := hsuff pm hpm
    exact ⟨m, hm, by omega⟩
  obtain ⟨w₁, ⟨v₁, hrun₁⟩, hpm₁, hfind₁, hdec₁, -⟩ :=
    startProject_ok_spec w id p pms hpms hp hne hnodup hsuff₁
  have hpms₁ : pms = w₁.projectMaterials.filter (fun pm => pm.projectId == id) := by
    rw [hpm₁]
    exact hpms
  have hsuff₂ : ∀ pm ∈ pms, ∃ m, findMaterialRow w₁.mdb pm.materialId = some m ∧
      pm.quantity ≤ m.stockQuantity := by
    intro pm hpm
    obtain ⟨m, hm, h0, h2⟩ := hsuff pm hpm
    refine ⟨{ m with stockQuantity := m.stockQuantity - pm.quantity },
      hdec₁ pm hpm m hm, ?_⟩
    show pm.quantity ≤ m.stockQuantity - pm.quantity
    omega
  obtain ⟨w₂, ⟨v₂, hrun₂⟩, hpm₂, hfind₂, hdec₂, -⟩ :=
    startProject_ok_spec w₁ id { p with status := .in_progress } pms hpms₁ hfind₁
      hne hnodup hsuff₂
  refine ⟨w₁, v₁, w₂, v₂, hrun₁, hrun₂, hfind₂, ?_⟩
  intro pm hpm m hm
  have hstep := hdec₂ pm hpm { m with stockQuantity := m.stockQuantity - pm.quantity }
    (hdec₁ pm hpm m hm)
  rw [hstep]
  congr 2
  show m.stockQuantity - pm.quantity - pm.quantity = m.stockQuantity - 2 * pm.quantity
  omega

/-- Witness for C10 at a concrete input: starting project 1 of `wP` twice
(line item of 2 units, stock 5) decrements material 1's stock by 4. -/
theorem claim_C10_witness :
    ([pmRow1] : List ProjectMaterialRow) =
        wP.projectMaterials.filter (fun pm => pm.projectId == 1) ∧
      wP.projects.find? (fun q => q.id == 1) = some projP ∧
      ([pmRow1] : List ProjectMaterialRow) ≠ [] ∧
      (([pmRow1].map (fun pm => pm.materialId)).Nodup) ∧
      (∀ pm ∈ [pmRow1], ∃ m, findMaterialRow wP.mdb pm.materialId = some m ∧
        0 ≤ pm.quantity ∧ 2 * pm.quantity ≤ m.stockQuantity) ∧
      (∃ w₁ v₁ w₂ v₂, startProject wP 1 = (w₁, .ok v₁) ∧
        startProject w₁ 1 = (w₂, .ok v₂) ∧
        w₂.projects.find? (fun q => q.id == 1) =
          some { projP with status := .in_progress } ∧
        ∀ pm ∈ [pmRow1], ∀ m, findMaterialRow wP.mdb pm.materialId = some m →
          findMaterialRow w₂.mdb pm.materialId =
            some { m with stockQuantity := m.stockQuantity - 2 * pm.quantity }) :=
  ⟨rfl, rfl, by decide, by decide,
    fun pm hpm => by
      rw [List.mem_singleton] at hpm
      subst hpm
      exact ⟨matW, rfl, by decide, by decide⟩,
    claim_C10_start_ignores_status wP 1 projP [pmRow1] rfl rfl (by decide) (by decide)
      (fun pm hpm => by
        rw [List.mem_singleton] at hpm
        subst hpm
        exact ⟨matW, rfl, by decide, by decide⟩)⟩

/-- Witness for the amended C6 at a concrete input. -/
theorem claim_C6_witness :
    (updateStock dbW 1 3 "restock").2 = .ok { matW with stockQuantity := 8 } ∧
      ((∃ row, (updateStock dbW 1 3 "restock").1.adjustments =
            dbW.adjustments ++ [row] ∧
          row.materialId = 1 ∧ row.quantityChange = 3 ∧
          row.quantityAfter = row.quantityBefore + 3) ∧
        (updateMaterial dbW 1 uStock).1.adjustments = dbW.adjustments) :=
  ⟨rfl, claim_C6_amended_audit dbW 1 3 "restock" uStock { matW with stockQuantity := 8 } rfl⟩

end DIYApi
